import Mathlib

/-!
Verification development for the Playwright WebSocket server
(`playwright-mcp/ws_server.py`): a shallow embedding of its
session/connection management core — artifact path resolution, the
companion artifact HTTP server's GET handler, the browser-context pool,
the session registry, the event broadcaster and the command dispatcher —
together with theorems settling the specification claims about them.

Modelling conventions:
* Filesystem paths are lists of path components.  `pathParts` mirrors how
  `pathlib.PurePosixPath` parses a string into parts: empty components and
  single-dot components are dropped at construction, while parent-directory
  components are kept and only eliminated by `resolveSegs`, which mirrors
  `Path.resolve()` on a symlink-free filesystem.
* Machine-level collaborators (the Playwright provider, sockets, the
  filesystem contents) are parameters: files are an association list from
  resolved path to byte content, socket sends are recorded as lists, and
  send/close failures are an oracle function.
* Randomly generated identifiers (session ids, fallback workspace ids,
  timestamps) are inputs.
-/

namespace WsServer

/-! ## Path model -/

/-- Split a character list at every `/`, as `str.split("/")` does (the
empty text yields one empty piece). -/
def splitSlash : List Char → List (List Char)
  | [] => [[]]
  | c :: t =>
    if c = '/' then [] :: splitSlash t
    else
      match splitSlash t with
      | h :: r => (c :: h) :: r
      | [] => [[c]]

/-- Whether `pre` is a prefix of `s` (`str.startswith(pre)`). -/
def strStartsWith (s pre : String) : Bool :=
  pre.data.isPrefixOf s.data

/-- Drop the first `n` characters of a string (`s[n:]`). -/
def strDrop (s : String) (n : Nat) : String :=
  String.mk (s.data.drop n)

/-- Components of a POSIX path string, as `pathlib` parses them: split on
`/`, dropping empty components and `.` components (pathlib normalises both
away at construction) while keeping `..` components. -/
def pathParts (s : String) : List String :=
  ((splitSlash s.data).map String.mk).filter (fun t => t ≠ "" && t ≠ ".")

/-- Lexical resolution of an absolute path given as components: `..` pops
the last component (staying at the root when there is nothing to pop, as
`Path("/..")` resolves to `/`).  Mirrors `Path.resolve()` on a
symlink-free filesystem. -/
def resolveSegs (l : List String) : List String :=
  l.foldl (fun acc seg => if seg = ".." then acc.dropLast else acc ++ [seg]) []

/-- Model of `Path(base) / rel` for a base given by components and a textual `rel`:
when `rel` is absolute it replaces the base entirely (pathlib join
semantics), otherwise its components are appended. -/
def pyJoin (base : List String) (rel : String) : List String :=
  if strStartsWith rel "/" then pathParts rel else base ++ pathParts rel

/-- Model of `Path(f).name`: the final path component, `""` when there is none. -/
def pathBaseName (f : String) : String :=
  (pathParts f).getLast?.getD ""

/-- Python's `sub in s` substring test, on character lists. -/
def listHasInfix (sub : List Char) : List Char → Bool
  | [] => sub.isPrefixOf []
  | c :: t => sub.isPrefixOf (c :: t) || listHasInfix sub t

/-- Model of `".." in s` for a string. -/
def hasDotDot (s : String) : Bool :=
  listHasInfix [Char.ofNat 46, Char.ofNat 46] s.data

/-- Value of a hexadecimal digit, as `urllib.parse.unquote` accepts them. -/
def hexVal (c : Char) : Option Nat :=
  if Char.ofNat 48 ≤ c ∧ c ≤ Char.ofNat 57 then some (c.toNat - 48)
  else if Char.ofNat 97 ≤ c ∧ c ≤ Char.ofNat 102 then some (c.toNat - 87)
  else if Char.ofNat 65 ≤ c ∧ c ≤ Char.ofNat 70 then some (c.toNat - 55)
  else none

/-- Model of `urllib.parse.unquote` on character lists: each valid `%XX` escape is
decoded to the character with that byte value; invalid escapes are left
untouched.  (Python decodes escaped byte sequences through UTF-8; since
no continuation byte of a multi-byte sequence is ASCII, decoding each
escaped byte to its own character yields the same `/`, `.` and ASCII
structure, which is all the path logic inspects.) -/
def unquoteChars : List Char → List Char
  | [] => []
  | [c] => [c]
  | [c, d] => [c, d]
  | c :: a :: b :: rest =>
    if c = '%' then
      match hexVal a, hexVal b with
      | some va, some vb => Char.ofNat (16 * va + vb) :: unquoteChars rest
      | _, _ => c :: unquoteChars (a :: b :: rest)
    else c :: unquoteChars (a :: b :: rest)

/-- Model of `urllib.parse.unquote` on strings. -/
def pyUnquote (s : String) : String :=
  String.mk (unquoteChars s.data)

/-- Model of `relative.split("/", 1)`: the text before the first `/` and the text
after it (`""` when there is no `/`, which the handler treats the same as
a missing artifact path). -/
def splitFirstSlash : List Char → List Char × List Char
  | [] => ([], [])
  | c :: t =>
    if c = '/' then ([], t)
    else
      let p := splitFirstSlash t
      (c :: p.1, p.2)

/-! ## Artifact store -/

/-- Model of `_resolve_artifact_path_for_dir` (`ws_server.py:391`): reduce a
requested filename to its base filename (or synthesise
`<prefix>_<timestamp><suffix>` when none was supplied — `if filename:` is
false for both `None` and `""`), reject names that start with `.` or
contain `..`, and return `artifacts_dir / name`.  Directory creation
(`_ensure_dir`) has no bearing on the resulting path and is not modelled. -/
def resolveArtifactPathForDir (artifactsDir : List String) (filename : Option String)
    (defaultPrefix : String) (suffix : String) (timestamp : Nat) :
    Except String (List String) :=
  let name :=
    match filename with
    | some f => if f = "" then defaultPrefix ++ "_" ++ toString timestamp ++ suffix
                else pathBaseName f
    | none => defaultPrefix ++ "_" ++ toString timestamp ++ suffix
  if strStartsWith name "." || hasDotDot name then Except.error "Invalid artifact filename"
  else Except.ok (artifactsDir ++ pathParts name)

/-- Decidable equality for raised-or-returned results. -/
instance exceptDecEq {e a : Type} [DecidableEq e] [DecidableEq a] :
    DecidableEq (Except e a) := fun x y =>
  match x, y with
  | Except.error u, Except.error v =>
    if h : u = v then isTrue (by rw [h]) else isFalse (by intro hc; cases hc; exact h rfl)
  | Except.error _, Except.ok _ => isFalse (by intro hc; cases hc)
  | Except.ok _, Except.error _ => isFalse (by intro hc; cases hc)
  | Except.ok u, Except.ok v =>
    if h : u = v then isTrue (by rw [h]) else isFalse (by intro hc; cases hc; exact h rfl)

/-- First-match lookup in an association list, as `dict.get` /
`list.find` do. -/
def lookupAssoc {α : Type} (key : String) (l : List (String × α)) : Option α :=
  (l.find? (fun p => p.1 = key)).map (fun p => p.2)

/-- The filesystem visible to the artifact server: resolved absolute paths
(as component lists) mapped to the bytes of the regular file stored there.
`exists() and is_file()` holds exactly for the listed paths. -/
def FileSystem : Type := List (List String × List Nat)

/-- Byte content of the regular file at a resolved path, when present. -/
def lookupFile (files : FileSystem) (p : List String) : Option (List Nat) :=
  (files.find? (fun q => q.1 = p)).map (fun q => q.2)

/-- A GET request to the companion artifact HTTP server, after the pieces
the Python stdlib extracts for the handler: `urlparse(self.path).path`,
`headers.get("Authorization", "")` and
`parse_qs(urlparse(self.path).query).get("token", [""])[0]`. -/
structure HttpRequest where
  urlPath : String
  authHeader : String
  queryToken : String
  deriving DecidableEq, Repr

/-- Outcome of `ArtifactHandler.do_GET`: either a `_reject(status, msg)`
response or a 200 serving the bytes of the file at the resolved path. -/
inductive HttpResult where
  | rejected (status : Nat) (message : String)
  | served (path : List String) (content : List Nat)
  deriving DecidableEq, Repr

/-- The artifact directory the handler compares against: for a request to
`/artifacts/<workspace-id>/...`, this is `artifact_root / workspace_id`
(unresolved, as in the source — `pathParts` only performs the
normalisation pathlib applies at construction). -/
def requestArtifactsDir (artifactRoot : List String) (urlPath : String) : List String :=
  artifactRoot ++ pathParts (String.mk (splitFirstSlash (strDrop urlPath 11).data).1)

/-- Model of `ArtifactHandler.do_GET` (`ws_server.py:290`): optional bearer-token
check (skipped when auth is not required or no token is configured), then
`/artifacts/<workspace-id>/<relative-path>` routing, percent-decoding of
the relative path, resolution of `artifact_root / workspace_id /
unquote(rel_path)`, rejection unless the artifacts directory is the
resolved path or one of its parents, and a 404 unless a regular file
exists there. -/
def doGET (authRequired : Bool) (token : String) (artifactRoot : List String)
    (files : FileSystem) (req : HttpRequest) : HttpResult :=
  if authRequired ∧ token ≠ "" ∧ req.authHeader ≠ "Bearer " ++ token ∧
      req.queryToken ≠ token then
    HttpResult.rejected 401 "Unauthorized"
  else if ¬ strStartsWith req.urlPath "/artifacts/" then
    HttpResult.rejected 404 "Not Found"
  else
    let relative := strDrop req.urlPath 11
    if relative = "" then HttpResult.rejected 400 "Missing workspace id"
    else
      let parts := splitFirstSlash relative.data
      let workspaceId := String.mk parts.1
      let relPath := String.mk parts.2
      if relPath = "" then HttpResult.rejected 400 "Missing artifact path"
      else
        let artifactsDir := artifactRoot ++ pathParts workspaceId
        let candidate := resolveSegs (pyJoin artifactsDir (pyUnquote relPath))
        if ¬ artifactsDir.isPrefixOf candidate then
          HttpResult.rejected 400 "Invalid artifact path"
        else
          match lookupFile files candidate with
          | none => HttpResult.rejected 404 "Artifact not found"
          | some bs => HttpResult.served candidate bs

/-- Successful response of the `get_artifact` command.  `content` holds
the bytes passed to `base64.b64encode`; since base64 encoding is injective
and decodes back to its input, the `content_base64` field of the real
response decodes exactly to `content`. -/
structure ArtifactResponse where
  path : String
  size : Nat
  truncated : Bool
  content : List Nat
  deriving DecidableEq, Repr

/-- Model of `_handle_get_artifact` (`ws_server.py:860`), after the session lookup:
requires a non-empty `path` argument, resolves `artifacts_dir / rel_path`
(no percent-decoding on this surface), rejects resolutions that leave the
artifacts directory, rejects missing files, and returns the file content
truncated to the first `maxBytes` bytes with `truncated` set accordingly
while `size` reports the full on-disk size. -/
def getArtifact (maxBytes : Nat) (artifactsDir : List String) (files : FileSystem)
    (relPath : Option String) : Except String ArtifactResponse :=
  match relPath with
  | none => Except.error "path is required"
  | some rel =>
    if rel = "" then Except.error "path is required"
    else
      let candidate := resolveSegs (pyJoin artifactsDir rel)
      if ¬ artifactsDir.isPrefixOf candidate then Except.error "Invalid artifact path"
      else
        match lookupFile files candidate with
        | none => Except.error "Artifact not found"
        | some bs =>
          let truncated := decide (maxBytes < bs.length)
          Except.ok
            { path := rel
              size := bs.length
              truncated := truncated
              content := if truncated then bs.take maxBytes else bs }

/-! ## Server configuration and state -/

/-- The environment-derived configuration the session/pool core reads
(`ws_server.py:38`).  `videoDir` is the raw `PLAYWRIGHT_VIDEO_DIR` value
(`""` when unset); `artifactRoot` is `WS_ARTIFACT_ROOT` as components. -/
structure Config where
  maxSessions : Nat
  poolEnabledEnv : Bool
  poolSize : Nat
  harEnabled : Bool
  eventStreamEnabled : Bool
  videoDir : String
  artifactRoot : List String
  deriving DecidableEq, Repr

/-- The session fields the claims inspect.  Browser contexts are
identified by the `Nat` handed out at creation; the metadata keys
`pool_eligible`, `event_stream_enabled`, `har_enabled` and
`workspace_id` are modelled as fields (timestamps, HAR paths and
console-log buffers play no role in the claims). -/
structure Session where
  ctx : Nat
  poolEligible : Bool
  eventStreamEnabled : Bool
  harEnabled : Bool
  workspaceId : String
  deriving DecidableEq, Repr

/-- Model of `PlaywrightWebSocketServer` state touched by session and pool
operations.  `nextCtx` is the allocator for fresh browser contexts;
`closedCtxs` records contexts on which `close()` completed. -/
structure ServerState where
  sessions : List (String × Session)
  contextPool : List Nat
  poolEnabled : Bool
  nextCtx : Nat
  closedCtxs : List Nat
  browserInit : Bool
  deriving DecidableEq, Repr

/-- Model of `_create_context` (`ws_server.py:493`), reduced to allocation of a
fresh context identity (recording options are provider kwargs with no
bearing on pool/session bookkeeping). -/
def createContext (st : ServerState) : Nat × ServerState :=
  (st.nextCtx, { st with nextCtx := st.nextCtx + 1 })

/-- Model of `context.close()` inside cleanup paths: the oracle `fails` says
whether closing a given context raises; a successful close is recorded. -/
def closeContext (fails : Nat → Bool) (st : ServerState) (c : Nat) :
    Except String ServerState :=
  if fails c then Except.error "close failed"
  else Except.ok { st with closedCtxs := c :: st.closedCtxs }

/-- Model of `_borrow_context` (`ws_server.py:433`): with pooling disabled, or HAR
recording or an imported storage state requested, always create a fresh
context; otherwise pop the last pooled context if any, else create.  The
guard on an uninitialised browser is the code's first line. -/
def borrowContext (st : ServerState) (recordHar hasStorage : Bool) :
    Except String (Nat × ServerState) :=
  if ¬ st.browserInit then Except.error "Browser not initialized"
  else if ¬ st.poolEnabled || recordHar || hasStorage then Except.ok (createContext st)
  else
    match st.contextPool.getLast? with
    | some c => Except.ok (c, { st with contextPool := st.contextPool.dropLast })
    | none => Except.ok (createContext st)

/-- Model of `_release_context` (`ws_server.py:460`): with pooling disabled close
the context; otherwise append it to the pool only when the pool is
strictly below capacity, closing it instead when full.  The `Except`
carries a close failure out to the caller (`_close_session` catches it). -/
def releaseContext (cfg : Config) (fails : Nat → Bool) (st : ServerState) (c : Nat) :
    Except String ServerState :=
  if ¬ st.poolEnabled then closeContext fails st c
  else if cfg.poolSize ≤ st.contextPool.length then closeContext fails st c
  else Except.ok { st with contextPool := st.contextPool ++ [c] }

/-- Model of `_normalize_workspace_id` (`ws_server.py:253`): fall back to a
generated id when the argument is `None` or `""`, keep only alphanumeric,
`-` and `_` characters, and fail when nothing remains. -/
def normalizeWorkspaceId (raw : Option String) (genWs : String) : Except String String :=
  let r := match raw with
    | some s => if s = "" then genWs else s
    | none => genWs
  let sanitized := String.mk (r.data.filter (fun c => c.isAlphanum || c = '-' || c = '_'))
  if sanitized = "" then Except.error "Invalid workspace_id" else Except.ok sanitized

/-- Model of `self.sessions[session_id] = session`: dict assignment replaces the
value in place when the key exists, otherwise appends in insertion
order. -/
def insertSession (sid : String) (s : Session) (l : List (String × Session)) :
    List (String × Session) :=
  if l.any (fun p => p.1 = sid) then l.map (fun p => if p.1 = sid then (sid, s) else p)
  else l ++ [(sid, s)]

/-- The inputs of one `_create_session` call that the environment chooses:
the freshly generated session id and fallback workspace id, the caller's
arguments, the wall-clock timestamp used in generated filenames, and
whether `context.new_page()` raises. -/
structure CreateParams where
  sid : String
  workspaceId : Option String
  genWs : String
  recordHar : Option Bool
  harPath : Option String
  timestamp : Nat
  pageFails : Bool
  deriving Repr

/-- Resolution of the HAR-recording decision in `_create_session`: the
explicit per-call override when given, else the process-wide default. -/
def resolvedHar (cfg : Config) (p : CreateParams) : Bool :=
  match p.recordHar with
  | none => cfg.harEnabled
  | some b => b

/-- The HAR-path reservation step of `_create_session`: when HAR recording
is resolved on, the artifact path for the HAR file is resolved (and its
validation error propagates); the reserved path itself is a provider
kwarg with no further bearing on the modelled state. -/
def harPathCheck (cfg : Config) (p : CreateParams) (workspace : String) :
    Except String Unit :=
  if resolvedHar cfg p then
    (resolveArtifactPathForDir (cfg.artifactRoot ++ [workspace]) p.harPath
      ("har_" ++ p.sid) ".har" p.timestamp).map (fun _ => ())
  else Except.ok ()

/-- The session record `_create_session` registers for a borrowed context
`c`, resolved HAR flag `rh` and normalised workspace `w`:
`pool_eligible = pool_enabled and not record_har`. -/
def newSession (cfg : Config) (st : ServerState) (rh : Bool) (c : Nat) (w : String) :
    Session :=
  { ctx := c, poolEligible := st.poolEnabled && !rh,
    eventStreamEnabled := cfg.eventStreamEnabled, harEnabled := rh, workspaceId := w }

/-- The state after `_create_session` registers the fully populated
session record under the freshly generated id. -/
def registerNewSession (cfg : Config) (st : ServerState) (p : CreateParams) (c : Nat)
    (st1 : ServerState) (w : String) : ServerState :=
  { st1 with
    sessions := insertSession p.sid (newSession cfg st (resolvedHar cfg p) c w) st1.sessions }

/-- Model of `_create_session` (`ws_server.py:613`): capacity check first, then
the browser guard, workspace normalisation, HAR resolution with HAR-path
reservation, context borrow, best-effort reset (no modelled state), page
opening, and registration of the fully populated session.  Every failure
path returns before the registry is touched. -/
def createSession (cfg : Config) (st : ServerState) (p : CreateParams) :
    ServerState × Except String Session :=
  if cfg.maxSessions ≤ st.sessions.length then
    (st, Except.error ("Maximum sessions (" ++ toString cfg.maxSessions ++ ") reached"))
  else if ¬ st.browserInit then (st, Except.error "Browser not initialized")
  else
    match normalizeWorkspaceId p.workspaceId p.genWs with
    | Except.error e => (st, Except.error e)
    | Except.ok workspace =>
      match harPathCheck cfg p workspace with
      | Except.error e => (st, Except.error e)
      | Except.ok _ =>
        match borrowContext st (resolvedHar cfg p) false with
        | Except.error e => (st, Except.error e)
        | Except.ok (ctx, st1) =>
          if p.pageFails then (st1, Except.error "new_page failed")
          else
            (registerNewSession cfg st p ctx st1 workspace,
              Except.ok (newSession cfg st (resolvedHar cfg p) ctx workspace))

/-- Model of `_close_session` (`ws_server.py:673`): pop the session first (a
missing id is a no-op), then under a catch-all: reset and release the
context when pool-eligible, close it outright otherwise.  A failure in
the release/close step is logged and swallowed; the session stays
removed.  (`_reset_context` is internally fault-tolerant and never
raises, and touches no modelled state.) -/
def removeSession (sid : String) (st : ServerState) : ServerState :=
  { st with sessions := st.sessions.filter (fun p => p.1 ≠ sid) }

def closeSession (cfg : Config) (fails : Nat → Bool) (st : ServerState) (sid : String) :
    ServerState :=
  match lookupAssoc sid st.sessions with
  | none => st
  | some s =>
    if s.poolEligible then
      match releaseContext cfg fails (removeSession sid st) s.ctx with
      | Except.ok st2 => st2
      | Except.error _ => removeSession sid st
    else
      match closeContext fails (removeSession sid st) s.ctx with
      | Except.ok st2 => st2
      | Except.error _ => removeSession sid st

/-- Model of `PlaywrightWebSocketServer.start` (`ws_server.py:159`), restricted to
the state the claims concern: pooling is disabled when
`PLAYWRIGHT_VIDEO_DIR` is set, and when pooling survives with a positive
configured size the pool is pre-warmed with that many fresh contexts.
(The startup auth-token guard and TLS/socket setup precede no modelled
state.) -/
def startState (cfg : Config) : ServerState :=
  let poolEnabled := cfg.poolEnabledEnv && cfg.videoDir = ""
  let pool := if poolEnabled && decide (0 < cfg.poolSize) then List.range cfg.poolSize else []
  { sessions := []
    contextPool := pool
    poolEnabled := poolEnabled
    nextCtx := pool.length
    closedCtxs := []
    browserInit := true }

/-! ## Operation sequences -/

/-- One top-level session operation, as issued by connections, the
`create_session`/`close_session` commands or the cleanup sweep. -/
inductive SessionOp where
  | create (p : CreateParams)
  | close (sid : String) (closeFail : Bool)

/-- Apply one session operation to the server state. -/
def stepOp (cfg : Config) (st : ServerState) : SessionOp → ServerState
  | SessionOp.create p => (createSession cfg st p).1
  | SessionOp.close sid f => closeSession cfg (fun _ => f) st sid

/-- Run a sequence of session operations. -/
def runOps (cfg : Config) (ops : List SessionOp) (st : ServerState) : ServerState :=
  ops.foldl (stepOp cfg) st

/-- One raw pool operation (`_borrow_context` / `_release_context`). -/
inductive PoolOp where
  | borrow (recordHar hasStorage : Bool)
  | release (c : Nat) (closeFail : Bool)

/-- Apply one pool operation to the server state. -/
def stepPoolOp (cfg : Config) (st : ServerState) : PoolOp → ServerState
  | PoolOp.borrow rh hs =>
    match borrowContext st rh hs with
    | Except.ok r => r.2
    | Except.error _ => st
  | PoolOp.release c f =>
    match releaseContext cfg (fun _ => f) st c with
    | Except.ok st2 => st2
    | Except.error _ => st

/-- Run a sequence of pool operations. -/
def runPoolOps (cfg : Config) (ops : List PoolOp) (st : ServerState) : ServerState :=
  ops.foldl (stepPoolOp cfg) st

/-- The contexts referenced by live sessions in the registry. -/
def sessionCtxs (st : ServerState) : List Nat :=
  st.sessions.map (fun p => p.2.ctx)

/-! ## Event broadcaster -/

/-- Model of `self._session_owners`: session id mapped to the set of connections
subscribed to its events (connections are identified by `Nat`; the set is
carried as its iteration order). -/
abbrev OwnersMap : Type := List (String × List Nat)

/-- The owners currently registered for a session
(`self._session_owners.get(session_id, set())`). -/
def ownersOf (sid : String) (m : OwnersMap) : List Nat :=
  (lookupAssoc sid m).getD []

/-- Model of `_register_session_owner` (`ws_server.py:354`): `setdefault` plus set
insertion. -/
def registerOwner (sid : String) (c : Nat) (m : OwnersMap) : OwnersMap :=
  if m.any (fun p => p.1 = sid) then
    m.map (fun p => if p.1 = sid then (p.1, if c ∈ p.2 then p.2 else p.2 ++ [c]) else p)
  else m ++ [(sid, [c])]

/-- Model of `_unregister_websocket` (`ws_server.py:358`): discard the connection
from every owner set it belongs to, and drop the entries this empties. -/
def unregisterConn (c : Nat) (m : OwnersMap) : OwnersMap :=
  (m.filter (fun p => ¬ (c ∈ p.2 ∧ p.2.filter (fun x => x ≠ c) = []))).map
    (fun p => (p.1, if c ∈ p.2 then p.2.filter (fun x => x ≠ c) else p.2))

/-- The `data` payload of a pushed event. -/
inductive EventData where
  | cmdStarted (command : String)
  | cmdFinished (command : String)
  | cmdFailed (command : Option String) (error : String)
  | console (text : String)
  deriving DecidableEq, Repr

/-- The push envelope `type=event, event, session_id, ts, data`
constructed by both emitters. -/
structure Envelope where
  type : String
  event : String
  sessionId : String
  ts : Nat
  data : EventData
  deriving DecidableEq, Repr

/-- Build the event envelope. -/
def mkEnvelope (event sid : String) (ts : Nat) (data : EventData) : Envelope :=
  { type := "event", event := event, sessionId := sid, ts := ts, data := data }

/-- Whether the per-session gate lets an event for `sid` through:
`session and not session.metadata.get("event_stream_enabled", True)`
suppresses the event — a session absent from the registry does not. -/
def sessionStreamEnabled (sid : String) (sessions : List (String × Session)) : Bool :=
  match lookupAssoc sid sessions with
  | some s => s.eventStreamEnabled
  | none => true

/-- The per-owner send loop of `_emit_session_event`: iterate the
snapshot of owners; a failing send (`fails c`) unregisters that
connection from the ownership map and delivers nothing to it, while the
remaining owners are still attempted. -/
def sendLoop (fails : Nat → Bool) (env : Envelope) (owners : List Nat) (m : OwnersMap) :
    OwnersMap × List (Nat × Envelope) :=
  match owners with
  | [] => (m, [])
  | c :: rest =>
    if fails c then sendLoop fails env rest (unregisterConn c m)
    else
      let r := sendLoop fails env rest m
      (r.1, (c, env) :: r.2)

/-- Model of `_emit_session_event` (`ws_server.py:368`): no-op when the event
stream is globally disabled or disabled for this session, otherwise
fan-out of the envelope to every currently registered owner. -/
def emitSessionEvent (globalEnabled : Bool) (sessions : List (String × Session))
    (m : OwnersMap) (fails : Nat → Bool) (sid event : String) (ts : Nat)
    (data : EventData) : OwnersMap × List (Nat × Envelope) :=
  if globalEnabled = false then (m, [])
  else if sessionStreamEnabled sid sessions = false then (m, [])
  else sendLoop fails (mkEnvelope event sid ts data) (ownersOf sid m) m

/-- Model of `_emit_event` (`ws_server.py:409`): the same global and per-session
gates, then a single send to the invoking connection only (none when the
connection is absent); a send failure here is logged and swallowed
without unregistering anyone. -/
def emitEvent (globalEnabled : Bool) (sessions : List (String × Session))
    (ws : Option Nat) (fails : Nat → Bool) (sid event : String) (ts : Nat)
    (data : EventData) : List (Nat × Envelope) :=
  if globalEnabled = false then []
  else if sessionStreamEnabled sid sessions = false then []
  else
    match ws with
    | none => []
    | some c => if fails c then [] else [(c, mkEnvelope event sid ts data)]

/-! ## Command dispatcher -/

/-- The keys of `self.handlers` (`ws_server.py:107`). -/
def commandNames : List String :=
  ["create_session", "list_sessions", "event_stream", "list_artifacts", "get_artifact",
   "navigate", "screenshot", "click", "fill", "type", "press", "evaluate",
   "get_content", "get_url", "wait_for_selector", "wait_for_url",
   "wait_for_load_state", "select_option", "check", "uncheck", "hover", "focus",
   "get_attribute", "get_text", "get_inner_html", "get_input_value", "is_visible",
   "is_enabled", "is_checked", "query_selector", "query_selector_all", "reload",
   "go_back", "go_forward", "set_viewport_size", "cookies", "set_cookies",
   "clear_cookies", "close_session", "health", "login", "get_console_logs",
   "clear_console_logs", "export_console_logs", "start_tracing", "stop_tracing",
   "export_storage_state", "import_storage_state", "get_video_path"]

/-- The command arguments the dispatcher itself inspects
(`args.get("session_id")`); all other arguments flow to the handler. -/
structure CmdArgs where
  sessionId : Option String
  deriving DecidableEq, Repr

/-- Result of `json.loads` on an inbound frame: a decode error, a valid
JSON value that is not an object (on which every `data.get` raises
`AttributeError`), or an object with the three fields the dispatcher
reads. -/
inductive Inbound where
  | malformed (err : String)
  | nonObject
  | parsed (id : Option String) (command : String) (args : CmdArgs)

/-- What handlers return, as far as the dispatcher inspects it: the
optional `session_id` of a freshly created session (used by the
`create_session` special case). -/
structure HandlerOut where
  sessionId : Option String
  deriving DecidableEq, Repr

/-- A message sent back to the requesting connection. -/
inductive Outbound where
  | response (id : String) (success : Bool) (data : HandlerOut)
  | jsonError (error : String)
  | cmdError (id : Option String) (error : String)
  deriving DecidableEq, Repr

/-- Outcome of one `_handle_message` call: either a reply reached the
sender and the read loop proceeds, or an exception escaped the dispatcher
(tearing the connection down). -/
inductive DispatchOutcome where
  | replied (out : Outbound)
  | crashed (exn : String)
  deriving DecidableEq, Repr

/-- Model of `_handle_message` (`ws_server.py:719`).  The handler behaviour is the
oracle `hr command target args`; `genId` is the uuid fragment used when
the request carries no `id`.  Branches, in source order: a JSON decode
error is answered with an id-less error envelope; a non-object JSON value
raises `AttributeError` at `data.get`, and the catch-all handler re-raises
`AttributeError` from its own `data.get('id')` (only `NameError` is
caught), so the exception escapes the dispatcher; an unknown command is
answered with `Unknown command: <name>`; a handler failure is answered
with an error envelope carrying the error text (and the raw request id);
success is answered with a `response` envelope, after the `create_session`
owner registration. -/
def handleMessage (hr : String → String → CmdArgs → Except String HandlerOut)
    (genId : String) (globalEnabled : Bool) (sessions : List (String × Session))
    (m : OwnersMap) (fails : Nat → Bool) (ws : Nat) (implicitSid : String) (ts : Nat)
    (msg : Inbound) : DispatchOutcome × List (Nat × Envelope) × OwnersMap :=
  match msg with
  | Inbound.malformed e =>
    (DispatchOutcome.replied (Outbound.jsonError ("Invalid JSON: " ++ e)), [], m)
  | Inbound.nonObject =>
    (DispatchOutcome.crashed "AttributeError", [], m)
  | Inbound.parsed mid cmd args =>
    let msgId := mid.getD genId
    let target := match args.sessionId with
      | some s => if s = "" then implicitSid else s
      | none => implicitSid
    if ¬ cmd ∈ commandNames then
      (DispatchOutcome.replied (Outbound.cmdError (some msgId) ("Unknown command: " ++ cmd)),
        [], m)
    else
      let ev1 := emitEvent globalEnabled sessions (some ws) fails target "command_started" ts
        (EventData.cmdStarted cmd)
      match hr cmd target args with
      | Except.ok r =>
        let ev2 := emitEvent globalEnabled sessions (some ws) fails target "command_finished"
          ts (EventData.cmdFinished cmd)
        let m2 := if cmd = "create_session" then
            match r.sessionId with
            | some ns => registerOwner ns ws m
            | none => m
          else m
        (DispatchOutcome.replied (Outbound.response msgId true r), ev1 ++ ev2, m2)
      | Except.error e =>
        let ev3 := emitEvent globalEnabled sessions (some ws) fails target "command_failed"
          ts (EventData.cmdFailed (some cmd) e)
        (DispatchOutcome.replied (Outbound.cmdError mid e), ev1 ++ ev3, m)

/-- The connection's read loop (`async for message in websocket` at
`ws_server.py:599`): messages are dispatched in order; an exception
escaping `_handle_message` aborts the loop (the supervisor's catch-all
then tears the connection down), so no later message is processed.
Returns the replies sent, in order, and whether the loop survived. -/
def readLoop (hr : String → String → CmdArgs → Except String HandlerOut)
    (genId : String) (globalEnabled : Bool) (sessions : List (String × Session))
    (fails : Nat → Bool) (ws : Nat) (implicitSid : String) (ts : Nat) :
    OwnersMap → List Inbound → List Outbound × Bool
  | _, [] => ([], true)
  | m, msg :: rest =>
    match handleMessage hr genId globalEnabled sessions m fails ws implicitSid ts msg with
    | (DispatchOutcome.replied out, _, m2) =>
      let r := readLoop hr genId globalEnabled sessions fails ws implicitSid ts m2 rest
      (out :: r.1, r.2)
    | (DispatchOutcome.crashed _, _, _) => ([], false)

/-! ## Claim C1: artifact path safety -/

/-- C1, counterexample: the claim says every requested path containing
`..` segments is rejected, URL-encoding tricks included.  The handler
only checks the resolved path: the request
`/artifacts/ws1/sub/%2e%2e/ok.png` decodes to a relative path with a
parent-directory segment, resolves back inside the workspace's
artifact directory, and is served, not rejected. -/
theorem C1_dotdot_request_served :
    ".." ∈ pathParts (pyUnquote "sub/%2e%2e/ok.png") ∧
    doGET false "" ["screenshots"] [(["screenshots", "ws1", "ok.png"], [7])]
        { urlPath := "/artifacts/ws1/sub/%2e%2e/ok.png", authHeader := "",
          queryToken := "" } =
      HttpResult.served ["screenshots", "ws1", "ok.png"] [7] :=
  ⟨by decide, by decide⟩

/-- C1 (amended): the HTTP artifact handler and the `get_artifact`
command serve a file only when the requested path, percent-decoded where
applicable and lexically resolved, lies inside the workspace's artifact
directory (requests resolving outside it are rejected before any read —
though a request whose `..` segments resolve back inside is served);
and every artifact filename resolved for writing is reduced to its base
filename, rejected when that base name starts with `.` or contains `..`,
and the resulting path always extends the workspace's artifact
directory. -/
theorem C1_artifact_path_safety :
    (∀ ar tk root files req p bs,
        doGET ar tk root files req = HttpResult.served p bs →
        (requestArtifactsDir root req.urlPath).isPrefixOf p = true ∧
        lookupFile files p = some bs) ∧
    (∀ dir files maxB rel r,
        getArtifact maxB dir files (some rel) = Except.ok r →
        dir.isPrefixOf (resolveSegs (pyJoin dir rel)) = true) ∧
    (∀ dir f pre suf ts q, f ≠ "" →
        resolveArtifactPathForDir dir (some f) pre suf ts = Except.ok q →
        q = dir ++ pathParts (pathBaseName f)) ∧
    (∀ dir f pre suf ts,
        (strStartsWith (pathBaseName f) "." = true ∨ hasDotDot (pathBaseName f) = true) →
        f ≠ "" →
        resolveArtifactPathForDir dir (some f) pre suf ts =
          Except.error "Invalid artifact filename") ∧
    (∀ dir fn pre suf ts q,
        resolveArtifactPathForDir dir fn pre suf ts = Except.ok q →
        dir.isPrefixOf q = true) := by
  refine ⟨?_, ?_, ?_, ?_, ?_⟩
  · intro ar tk root files req p bs h
    simp only [doGET] at h
    split at h
    · exact absurd h (by simp)
    split at h
    · exact absurd h (by simp)
    split at h
    · exact absurd h (by simp)
    split at h
    · exact absurd h (by simp)
    split at h
    · exact absurd h (by simp)
    next hguard =>
      split at h
      · exact absurd h (by simp)
      next bs2 hfile =>
        injection h with h1 h2
        subst h1; subst h2
        exact ⟨not_not.mp hguard, hfile⟩
  · intro dir files maxB rel r h
    simp only [getArtifact] at h
    split at h
    · exact absurd h (by simp)
    split at h
    · exact absurd h (by simp)
    next hguard =>
      split at h
      · exact absurd h (by simp)
      · exact not_not.mp hguard
  · intro dir f pre suf ts q hf h
    simp only [resolveArtifactPathForDir] at h
    rw [if_neg hf] at h
    split at h
    · exact absurd h (by simp)
    · injection h with h1
      exact h1.symm
  · intro dir f pre suf ts hb hf
    simp only [resolveArtifactPathForDir]
    rw [if_neg hf, if_pos]
    rcases hb with hb | hb <;> simp [hb]
  · intro dir fn pre suf ts q h
    simp only [resolveArtifactPathForDir] at h
    split at h
    · exact absurd h (by simp)
    · injection h with h1
      subst h1
      exact List.isPrefixOf_iff_prefix.mpr (List.prefix_append dir _)

/-- C1, witness: each part of `C1_artifact_path_safety` applied at a
concrete input. -/
theorem C1_artifact_path_safety_witness :
    ((requestArtifactsDir ["screenshots"] "/artifacts/ws1/ok.png").isPrefixOf
        ["screenshots", "ws1", "ok.png"] = true ∧
      lookupFile [(["screenshots", "ws1", "ok.png"], [7])]
        ["screenshots", "ws1", "ok.png"] = some [7]) ∧
    ["screenshots", "ws1"].isPrefixOf
      (resolveSegs (pyJoin ["screenshots", "ws1"] "shot.png")) = true ∧
    (["screenshots", "ws1", "x.png"] : List String) =
      ["screenshots", "ws1"] ++ pathParts (pathBaseName "a/x.png") ∧
    resolveArtifactPathForDir ["screenshots", "ws1"] (some ".hidden") "s" ".png" 0 =
      Except.error "Invalid artifact filename" ∧
    ["screenshots", "ws1"].isPrefixOf ["screenshots", "ws1", "s_0.png"] = true :=
  ⟨C1_artifact_path_safety.1 false "" ["screenshots"]
      [(["screenshots", "ws1", "ok.png"], [7])]
      { urlPath := "/artifacts/ws1/ok.png", authHeader := "", queryToken := "" }
      ["screenshots", "ws1", "ok.png"] [7] (by decide),
    C1_artifact_path_safety.2.1 ["screenshots", "ws1"]
      [(["screenshots", "ws1", "shot.png"], [1])] 5 "shot.png"
      { path := "shot.png", size := 1, truncated := false, content := [1] } (by decide),
    C1_artifact_path_safety.2.2.1 ["screenshots", "ws1"] "a/x.png" "s" ".png" 0
      ["screenshots", "ws1", "x.png"] (by decide) (by decide),
    C1_artifact_path_safety.2.2.2.1 ["screenshots", "ws1"] ".hidden" "s" ".png" 0
      (Or.inl (by decide)) (by decide),
    C1_artifact_path_safety.2.2.2.2 ["screenshots", "ws1"] none "s" ".png" 0
      ["screenshots", "ws1", "s_0.png"] (by decide)⟩

/-! ## Claim C9: artifact HTTP authentication -/

/-- C9, counterexample: the claim says that whenever artifact HTTP
authentication is required, a request with neither matching credential
gets a 401.  When no token is configured (empty token), the handler skips
the check entirely (`if ARTIFACT_HTTP_AUTH_REQUIRED and token:`) and
serves the file to a request carrying no matching credential. -/
theorem C9_empty_token_serves_without_auth :
    ("" : String) ≠ "Bearer " ++ "" ∧ ("x" : String) ≠ "" ∧
    doGET true "" ["screenshots"] [(["screenshots", "ws1", "ok.png"], [7])]
        { urlPath := "/artifacts/ws1/ok.png", authHeader := "", queryToken := "x" } =
      HttpResult.served ["screenshots", "ws1", "ok.png"] [7] :=
  ⟨by decide, by decide, by decide⟩

/-- C9 (amended): when artifact HTTP authentication is required and a
non-empty token is configured, every GET request whose Authorization
header is not `Bearer <token>` and whose `token` query parameter is not
the token is answered 401 Unauthorized, and no file content is served. -/
theorem C9_artifact_http_auth (token : String) (root : List String)
    (files : FileSystem) (req : HttpRequest) (htok : token ≠ "")
    (hh : req.authHeader ≠ "Bearer " ++ token) (hq : req.queryToken ≠ token) :
    doGET true token root files req = HttpResult.rejected 401 "Unauthorized" := by
  simp [doGET, htok, hh, hq]

/-- C9, witness: `C9_artifact_http_auth` at a concrete request. -/
theorem C9_artifact_http_auth_witness :
    doGET true "tok" ["screenshots"] [(["screenshots", "ws1", "ok.png"], [7])]
        { urlPath := "/artifacts/ws1/ok.png", authHeader := "Bearer wrong",
          queryToken := "" } =
      HttpResult.rejected 401 "Unauthorized" :=
  C9_artifact_http_auth "tok" ["screenshots"] [(["screenshots", "ws1", "ok.png"], [7])]
    { urlPath := "/artifacts/ws1/ok.png", authHeader := "Bearer wrong", queryToken := "" }
    (by decide) (by decide) (by decide)

/-! ## Claim C10: artifact content truncation -/

/-- C10: a successful `get_artifact` on an existing file returns at most
`WS_ARTIFACT_MAX_BYTES` content bytes: the content is the first
`maxBytes` bytes of the file, `truncated` is set exactly when the file is
larger than the limit, and `size` reports the full on-disk size (so for
files within the limit the content is the complete file, since
`bs.take maxB = bs` then). -/
theorem C10_get_artifact_truncation (maxB : Nat) (dir : List String)
    (files : FileSystem) (rel : String) (r : ArtifactResponse) (bs : List Nat)
    (h : getArtifact maxB dir files (some rel) = Except.ok r)
    (hf : lookupFile files (resolveSegs (pyJoin dir rel)) = some bs) :
    r.content.length ≤ maxB ∧ r.size = bs.length ∧
    r.truncated = decide (maxB < bs.length) ∧
    r.content = bs.take maxB ∧ r.path = rel := by
  simp only [getArtifact] at h
  split at h
  · exact absurd h (by simp)
  split at h
  · exact absurd h (by simp)
  next hguard =>
    split at h
    · exact absurd h (by simp)
    next bs2 hf2 =>
      rw [hf] at hf2
      injection hf2 with hbs
      subst hbs
      injection h with h1
      subst h1
      refine ⟨?_, rfl, rfl, ?_, rfl⟩
      · by_cases hlt : maxB < bs.length
        · simp [hlt, List.length_take]
        · simp [hlt, Nat.le_of_not_lt hlt]
      · by_cases hlt : maxB < bs.length
        · simp [hlt]
        · simp [hlt, List.take_of_length_le (Nat.le_of_not_lt hlt)]

/-- C10, witness: `C10_get_artifact_truncation` on a 3-byte file with a
2-byte limit. -/
theorem C10_get_artifact_truncation_witness :
    ({ path := "big.bin", size := 3, truncated := true,
        content := [1, 2] } : ArtifactResponse).content.length ≤ 2 ∧
    (3 : Nat) = ([1, 2, 3] : List Nat).length ∧
    true = decide (2 < ([1, 2, 3] : List Nat).length) ∧
    ([1, 2] : List Nat) = ([1, 2, 3] : List Nat).take 2 ∧
    "big.bin" = "big.bin" :=
  C10_get_artifact_truncation 2 ["screenshots", "ws1"]
    [(["screenshots", "ws1", "big.bin"], [1, 2, 3])] "big.bin"
    { path := "big.bin", size := 3, truncated := true, content := [1, 2] }
    [1, 2, 3] (by decide) (by decide)

/-! ## Claim C8: pool pre-warming at startup -/

/-- Configuration with HAR recording globally enabled, pooling enabled and
no video directory, exercising the startup pre-warm path. -/
def harPoolCfg : Config :=
  { maxSessions := 10, poolEnabledEnv := true, poolSize := 2, harEnabled := true,
    eventStreamEnabled := true, videoDir := "", artifactRoot := ["screenshots"] }

/-- C8, counterexample: the claim says pre-warming is skipped entirely
whenever HAR recording is globally enabled.  `start` only disables
pooling for `PLAYWRIGHT_VIDEO_DIR`; with `WS_HAR_ENABLED=true` the pool
is still pre-warmed to capacity, so pooled contexts do exist after
startup. -/
theorem C8_har_does_not_skip_prewarm :
    harPoolCfg.harEnabled = true ∧
    (startState harPoolCfg).contextPool.length = 2 :=
  ⟨rfl, rfl⟩

/-- C8 (amended): at startup the pool is pre-warmed to the configured
capacity exactly when pooling is enabled, no video directory is
configured, and the capacity is positive; video recording disables
pooling (and hence pre-warming) entirely, while HAR recording does not
affect pre-warming (HAR-recording sessions simply bypass the pool). -/
theorem C8_prewarm_iff_pool_enabled_and_no_video (cfg : Config) :
    (startState cfg).contextPool.length =
      if (cfg.poolEnabledEnv && (decide (cfg.videoDir = "")) &&
          decide (0 < cfg.poolSize)) = true
      then cfg.poolSize else 0 := by
  simp only [startState]
  split
  next hc => exact List.length_range cfg.poolSize
  next hc => rfl

/-! ## Helper lemmas about the session/pool operations -/

/-- A successful borrow either allocates the fresh context or pops the
last pooled context, leaving every other field unchanged. -/
theorem borrowContext_spec {st : ServerState} {rh hs : Bool} {c : Nat} {st1 : ServerState}
    (h : borrowContext st rh hs = Except.ok (c, st1)) :
    (c = st.nextCtx ∧ st1 = { st with nextCtx := st.nextCtx + 1 }) ∨
    (st.contextPool.getLast? = some c ∧
      st1 = { st with contextPool := st.contextPool.dropLast }) := by
  unfold borrowContext at h
  split at h
  · exact absurd h (by simp)
  split at h
  · left
    unfold createContext at h
    injection h with h1
    injection h1 with h2 h3
    exact ⟨h2.symm, h3.symm⟩
  · split at h
    next c2 hl =>
      right
      injection h with h1
      injection h1 with h2 h3
      rw [h2] at hl
      exact ⟨hl, h3.symm⟩
    next hl =>
      left
      unfold createContext at h
      injection h with h1
      injection h1 with h2 h3
      exact ⟨h2.symm, h3.symm⟩

/-- A successful release either closes the context (when pooling is off or
the pool is full) or appends it to a strictly-below-capacity pool. -/
theorem releaseContext_spec {cfg : Config} {f : Nat → Bool} {st : ServerState} {c : Nat}
    {st2 : ServerState} (h : releaseContext cfg f st c = Except.ok st2) :
    st2 = { st with closedCtxs := c :: st.closedCtxs } ∨
    (st.poolEnabled = true ∧ st.contextPool.length < cfg.poolSize ∧
      st2 = { st with contextPool := st.contextPool ++ [c] }) := by
  unfold releaseContext closeContext at h
  split at h
  · split at h
    · exact absurd h (by simp)
    · left; injection h with h1; exact h1.symm
  next hpe =>
    split at h
    next hfull =>
      split at h
      · exact absurd h (by simp)
      · left; injection h with h1; exact h1.symm
    next hfull =>
      right
      injection h with h1
      exact ⟨by revert hpe; cases st.poolEnabled <;> simp,
        Nat.lt_of_not_le (fun hx => hfull hx), h1.symm⟩

/-- Inserting a session grows the registry by at most one entry. -/
theorem insertSession_length (sid : String) (s : Session) (l : List (String × Session)) :
    (insertSession sid s l).length ≤ l.length + 1 := by
  unfold insertSession
  split
  · simp
  · simp

/-- Case analysis of one `_create_session` call on the state: either a
failure path left the state untouched, or a context was borrowed and the
call stopped after the borrow (page-open failure), or the fully populated
session was additionally registered; registration only happens below the
session capacity. -/
theorem createSession_cases (cfg : Config) (st : ServerState) (p : CreateParams) :
    (createSession cfg st p).1 = st ∨
    ∃ rh c st1 w, borrowContext st rh false = Except.ok (c, st1) ∧
      ((createSession cfg st p).1 = st1 ∨
        (¬ cfg.maxSessions ≤ st.sessions.length ∧
          (createSession cfg st p).1 =
            { st1 with
              sessions := insertSession p.sid (newSession cfg st rh c w) st1.sessions })) := by
  unfold createSession
  split
  · exact Or.inl rfl
  next hcap =>
  split
  · exact Or.inl rfl
  split
  · exact Or.inl rfl
  next w hw =>
  split
  · exact Or.inl rfl
  split
  · exact Or.inl rfl
  next c st1 hb =>
  split
  · exact Or.inr ⟨_, c, st1, w, hb, Or.inl rfl⟩
  · exact Or.inr ⟨_, c, st1, w, hb, Or.inr ⟨hcap, rfl⟩⟩

/-- Case analysis of one `_close_session` call: a no-op on an absent id;
otherwise the session is removed and its context is released to the pool,
closed, or leaked when the close raised. -/
theorem closeSession_cases (cfg : Config) (f : Nat → Bool) (st : ServerState)
    (sid : String) :
    (lookupAssoc sid st.sessions = none ∧ closeSession cfg f st sid = st) ∨
    ∃ s, lookupAssoc sid st.sessions = some s ∧
      (closeSession cfg f st sid = removeSession sid st ∨
        closeSession cfg f st sid =
          { removeSession sid st with closedCtxs := s.ctx :: st.closedCtxs } ∨
        (st.poolEnabled = true ∧ st.contextPool.length < cfg.poolSize ∧
          closeSession cfg f st sid =
            { removeSession sid st with contextPool := st.contextPool ++ [s.ctx] })) := by
  unfold closeSession
  split
  next hl => exact Or.inl ⟨hl, rfl⟩
  next s hl =>
    right
    refine ⟨s, hl, ?_⟩
    split
    · split
      next st2 hr =>
        rcases releaseContext_spec hr with h2 | ⟨hpe, hlt, h2⟩
        · exact Or.inr (Or.inl h2)
        · exact Or.inr (Or.inr ⟨hpe, hlt, h2⟩)
      · exact Or.inl rfl
    · split
      next st2 hcl =>
        unfold closeContext at hcl
        split at hcl
        · exact absurd hcl (by simp)
        · injection hcl with h1; exact Or.inr (Or.inl h1.symm)
      · exact Or.inl rfl

/-! ## Claim C2: session capacity -/

/-- One session operation cannot push the registry above capacity. -/
theorem stepOp_length (cfg : Config) (st : ServerState) (op : SessionOp)
    (h : st.sessions.length ≤ cfg.maxSessions) :
    (stepOp cfg st op).sessions.length ≤ cfg.maxSessions := by
  cases op with
  | create p =>
    show (createSession cfg st p).1.sessions.length ≤ cfg.maxSessions
    rcases createSession_cases cfg st p with hc | ⟨rh, c, st1, w, hb, hc | ⟨hcap, hc⟩⟩
    · rw [hc]; exact h
    · rw [hc]
      rcases borrowContext_spec hb with ⟨_, h1⟩ | ⟨_, h1⟩ <;> rw [h1] <;> exact h
    · rw [hc]
      have hs1 : st1.sessions = st.sessions := by
        rcases borrowContext_spec hb with ⟨_, h1⟩ | ⟨_, h1⟩ <;> rw [h1]
      have := insertSession_length p.sid (newSession cfg st rh c w) st1.sessions
      calc (insertSession p.sid _ st1.sessions).length
          ≤ st1.sessions.length + 1 := this
        _ = st.sessions.length + 1 := by rw [hs1]
        _ ≤ cfg.maxSessions := Nat.succ_le_of_lt (Nat.lt_of_not_le hcap)
  | close sid f =>
    show (closeSession cfg (fun _ => f) st sid).sessions.length ≤ cfg.maxSessions
    rcases closeSession_cases cfg (fun _ => f) st sid with ⟨_, hc⟩ |
      ⟨s, _, hc | hc | ⟨_, _, hc⟩⟩ <;> rw [hc] <;>
      first
        | exact h
        | exact le_trans (List.length_filter_le _ st.sessions) h

/-- C2: with the registry at or above the configured maximum,
`create_session` fails with the capacity error and returns the state
unchanged (no session added, no record modified); consequently, starting
from the server's start state, no sequence of create/close operations
pushes the number of live sessions above the maximum. -/
theorem C2_session_capacity (cfg : Config) :
    (∀ st p, cfg.maxSessions ≤ st.sessions.length →
      createSession cfg st p =
        (st, Except.error ("Maximum sessions (" ++ toString cfg.maxSessions ++ ") reached"))) ∧
    (∀ ops, (runOps cfg ops (startState cfg)).sessions.length ≤ cfg.maxSessions) := by
  constructor
  · intro st p h
    unfold createSession
    rw [if_pos h]
  · have key : ∀ ops st, st.sessions.length ≤ cfg.maxSessions →
        (runOps cfg ops st).sessions.length ≤ cfg.maxSessions := by
      intro ops
      induction ops with
      | nil => intro st h; exact h
      | cons op rest ih => intro st h; exact ih _ (stepOp_length cfg st op h)
    intro ops
    have h0 : (startState cfg).sessions = [] := rfl
    exact key ops _ (by rw [h0]; exact Nat.zero_le _)

/-- A session record used in concrete witness states. -/
def plainSession (c : Nat) (pe : Bool) : Session :=
  { ctx := c, poolEligible := pe, eventStreamEnabled := true, harEnabled := false,
    workspaceId := "w" }

/-- Creation parameters used in concrete witness runs. -/
def plainCreate (sid ws : String) : CreateParams :=
  { sid := sid, workspaceId := some ws, genWs := "g", recordHar := some false,
    harPath := none, timestamp := 0, pageFails := false }

/-- A configuration with one session slot, pooling off. -/
def oneSessionCfg : Config :=
  { maxSessions := 1, poolEnabledEnv := false, poolSize := 0, harEnabled := false,
    eventStreamEnabled := true, videoDir := "", artifactRoot := ["screenshots"] }

/-- A server state holding exactly one live session. -/
def oneSessionState : ServerState :=
  { sessions := [("s0", plainSession 0 false)], contextPool := [],
    poolEnabled := false, nextCtx := 1, closedCtxs := [], browserInit := true }

/-- C2, witness: with `maxSessions = 1` and one live session, a further
create fails with the capacity error and leaves the state unchanged; a
two-operation run stays within the bound. -/
theorem C2_session_capacity_witness :
    createSession oneSessionCfg oneSessionState (plainCreate "s1" "ws1") =
      (oneSessionState, Except.error "Maximum sessions (1) reached") ∧
    (runOps oneSessionCfg
        [SessionOp.create (plainCreate "s1" "ws1"),
          SessionOp.create (plainCreate "s2" "ws2")]
        (startState oneSessionCfg)).sessions.length ≤ 1 := by
  constructor
  · exact (C2_session_capacity oneSessionCfg).1 oneSessionState _ (by decide)
  · exact (C2_session_capacity oneSessionCfg).2 _

/-! ## Claim C3: pool capacity -/

/-- One pool operation cannot push the pool above capacity. -/
theorem stepPoolOp_length (cfg : Config) (st : ServerState) (op : PoolOp)
    (h : st.contextPool.length ≤ cfg.poolSize) :
    (stepPoolOp cfg st op).contextPool.length ≤ cfg.poolSize := by
  cases op with
  | borrow rh hs =>
    simp only [stepPoolOp]
    split
    next r hb =>
      rcases @borrowContext_spec st rh hs r.1 r.2 (by rw [hb]) with ⟨_, h1⟩ | ⟨_, h1⟩
      · rw [h1]; exact h
      · rw [h1]
        exact le_trans (List.Sublist.length_le (List.dropLast_sublist _)) h
    · exact h
  | release c f =>
    simp only [stepPoolOp]
    split
    next st2 hr =>
      rcases releaseContext_spec hr with h1 | ⟨_, hlt, h1⟩
      · rw [h1]; exact h
      · rw [h1]
        simpa using Nat.succ_le_of_lt hlt
    · exact h

/-- C3: the pool never exceeds its configured capacity under any sequence
of borrow/release operations (in particular from the pre-warmed start
state), because release appends only when strictly below capacity and
closes the context otherwise. -/
theorem C3_pool_capacity (cfg : Config) :
    (∀ ops st, st.contextPool.length ≤ cfg.poolSize →
      (runPoolOps cfg ops st).contextPool.length ≤ cfg.poolSize) ∧
    (∀ st c f, st.poolEnabled = true → st.contextPool.length < cfg.poolSize →
      releaseContext cfg f st c =
        Except.ok { st with contextPool := st.contextPool ++ [c] }) ∧
    (∀ st c f, st.poolEnabled = true → cfg.poolSize ≤ st.contextPool.length →
      releaseContext cfg f st c = closeContext f st c) ∧
    (∀ ops, (runPoolOps cfg ops (startState cfg)).contextPool.length ≤ cfg.poolSize) := by
  have key : ∀ ops st, st.contextPool.length ≤ cfg.poolSize →
      (runPoolOps cfg ops st).contextPool.length ≤ cfg.poolSize := by
    intro ops
    induction ops with
    | nil => intro st h; exact h
    | cons op rest ih => intro st h; exact ih _ (stepPoolOp_length cfg st op h)
  refine ⟨key, ?_, ?_, ?_⟩
  · intro st c f hpe hlt
    unfold releaseContext
    rw [if_neg (by rw [hpe]; simp), if_neg (by omega)]
  · intro st c f hpe hge
    unfold releaseContext
    rw [if_neg (by rw [hpe]; simp), if_pos hge]
  · intro ops
    apply key
    have : (startState cfg).contextPool.length =
        if (cfg.poolEnabledEnv && (decide (cfg.videoDir = "")) &&
            decide (0 < cfg.poolSize)) = true
        then cfg.poolSize else 0 := by
      simp only [startState]
      split
      next hc => exact List.length_range cfg.poolSize
      next hc => rfl
    rw [this]
    split
    · exact Nat.le_refl _
    · exact Nat.zero_le _

/-- A server state with one pooled context, pooling on, capacity two. -/
def onePooledState : ServerState :=
  { sessions := [], contextPool := [0], poolEnabled := true, nextCtx := 2,
    closedCtxs := [], browserInit := true }

/-- A server state with a full pool of two contexts. -/
def fullPoolState : ServerState :=
  { sessions := [], contextPool := [0, 1], poolEnabled := true, nextCtx := 2,
    closedCtxs := [], browserInit := true }

/-- C3, witness: `C3_pool_capacity` applied at a concrete configuration,
state and operation sequence. -/
theorem C3_pool_capacity_witness :
    (runPoolOps harPoolCfg [PoolOp.release 5 false, PoolOp.release 6 false,
        PoolOp.borrow false false]
      (startState harPoolCfg)).contextPool.length ≤ 2 ∧
    releaseContext harPoolCfg (fun _ => false) onePooledState 1 =
      Except.ok { onePooledState with contextPool := [0, 1] } ∧
    releaseContext harPoolCfg (fun _ => false) fullPoolState 2 =
      closeContext (fun _ => false) fullPoolState 2 := by
  refine ⟨(C3_pool_capacity harPoolCfg).2.2.2 _, ?_, ?_⟩
  · exact (C3_pool_capacity harPoolCfg).2.1 onePooledState 1 _ rfl (by decide)
  · exact (C3_pool_capacity harPoolCfg).2.2.1 fullPoolState 2 _ rfl (by decide)

/-! ## Claim C4: close_session idempotence and totality -/

/-- After filtering out a key, looking it up finds nothing. -/
theorem lookupAssoc_filter_ne {α : Type} (sid : String) (l : List (String × α)) :
    lookupAssoc sid (l.filter (fun p => p.1 ≠ sid)) = none := by
  unfold lookupAssoc
  rw [List.find?_eq_none.mpr]
  · rfl
  · intro p hp
    have := (List.mem_filter.mp hp).2
    simp only [decide_not] at this ⊢
    simpa using this

/-- C4: `close(session_id)` is idempotent — closing an absent id is a
no-op and closing twice equals closing once — and for every
close/release failure oracle the session is removed from the registry;
when the session is pool-eligible its context is released to the pool
(appended when the pool is strictly below capacity), and otherwise the
context is closed outright, the pool untouched. -/
theorem C4_close_session (cfg : Config) (fails : Nat → Bool) (st : ServerState)
    (sid : String) :
    (lookupAssoc sid st.sessions = none → closeSession cfg fails st sid = st) ∧
    lookupAssoc sid (closeSession cfg fails st sid).sessions = none ∧
    closeSession cfg fails (closeSession cfg fails st sid) sid =
      closeSession cfg fails st sid ∧
    (∀ s, lookupAssoc sid st.sessions = some s → s.poolEligible = true →
      st.poolEnabled = true → st.contextPool.length < cfg.poolSize →
      (closeSession cfg fails st sid).contextPool = st.contextPool ++ [s.ctx] ∧
      (closeSession cfg fails st sid).sessions =
        st.sessions.filter (fun p => p.1 ≠ sid)) ∧
    (∀ s, lookupAssoc sid st.sessions = some s → s.poolEligible = false →
      fails s.ctx = false →
      (closeSession cfg fails st sid).closedCtxs = s.ctx :: st.closedCtxs ∧
      (closeSession cfg fails st sid).contextPool = st.contextPool ∧
      (closeSession cfg fails st sid).sessions =
        st.sessions.filter (fun p => p.1 ≠ sid)) := by
  have hnone : ∀ st2 : ServerState, lookupAssoc sid st2.sessions = none →
      closeSession cfg fails st2 sid = st2 := by
    intro st2 h2
    unfold closeSession
    rw [h2]
  have hrem : lookupAssoc sid (closeSession cfg fails st sid).sessions = none := by
    rcases closeSession_cases cfg fails st sid with ⟨hl, hc⟩ |
      ⟨s, hl, hc | hc | ⟨_, _, hc⟩⟩ <;> rw [hc]
    · exact hl
    all_goals exact lookupAssoc_filter_ne sid st.sessions
  refine ⟨hnone st, hrem, hnone _ hrem, ?_, ?_⟩
  · intro s hl hpe hen hlt
    have hr : releaseContext cfg fails (removeSession sid st) s.ctx =
        Except.ok { removeSession sid st with contextPool := st.contextPool ++ [s.ctx] } := by
      unfold releaseContext
      rw [if_neg (not_not_intro hen :
            ¬¬(removeSession sid st).poolEnabled = true),
        if_neg (Nat.not_le_of_gt hlt :
            ¬cfg.poolSize ≤ (removeSession sid st).contextPool.length)]
      rfl
    have hc : closeSession cfg fails st sid =
        { removeSession sid st with contextPool := st.contextPool ++ [s.ctx] } := by
      unfold closeSession
      rw [hl]
      dsimp only
      rw [if_pos hpe, hr]
    rw [hc]
    exact ⟨rfl, rfl⟩
  · intro s hl hpe hcl
    have hk : closeContext fails (removeSession sid st) s.ctx =
        Except.ok { removeSession sid st with closedCtxs := s.ctx :: st.closedCtxs } := by
      unfold closeContext
      rw [if_neg (by simp [hcl])]
      rfl
    have hc : closeSession cfg fails st sid =
        { removeSession sid st with closedCtxs := s.ctx :: st.closedCtxs } := by
      unfold closeSession
      rw [hl]
      dsimp only
      rw [if_neg (by simp [hpe]), hk]
    rw [hc]
    exact ⟨rfl, rfl, rfl⟩

/-- C4, witness: `C4_close_session` applied with a failing close oracle
on a state with one session, and the branch conclusions at concrete
states. -/
theorem C4_close_session_witness :
    (closeSession oneSessionCfg (fun _ => true) oneSessionState "absent" =
      oneSessionState) ∧
    lookupAssoc "s0"
      (closeSession oneSessionCfg (fun _ => true) oneSessionState "s0").sessions = none ∧
    (closeSession harPoolCfg (fun _ => false)
        { onePooledState with sessions := [("s0", plainSession 1 true)] }
        "s0").contextPool = [0, 1] ∧
    (closeSession oneSessionCfg (fun _ => false) oneSessionState "s0").closedCtxs =
      [0] := by
  refine ⟨(C4_close_session oneSessionCfg (fun _ => true) oneSessionState "absent").1
      (by decide),
    (C4_close_session oneSessionCfg (fun _ => true) oneSessionState "s0").2.1, ?_, ?_⟩
  · exact ((C4_close_session harPoolCfg (fun _ => false)
      { onePooledState with sessions := [("s0", plainSession 1 true)] }
      "s0").2.2.2.1 (plainSession 1 true) (by decide) rfl rfl (by decide)).1
  · exact ((C4_close_session oneSessionCfg (fun _ => false) oneSessionState
      "s0").2.2.2.2 (plainSession 0 false) (by decide) rfl rfl).1

/-! ## Claim C7: no context is both pooled and referenced by a session -/

/-- Unfolding `lookupAssoc` over a head entry. -/
theorem lookupAssoc_cons {α : Type} (k : String) (v : α) (t : List (String × α))
    (sid : String) :
    lookupAssoc sid ((k, v) :: t) = if k = sid then some v else lookupAssoc sid t := by
  unfold lookupAssoc
  rw [List.find?_cons]
  by_cases h : k = sid
  · simp [h]
  · simp [h]

/-- The element a `getLast?` hit belongs to the list. -/
theorem mem_of_getLast?_some {α : Type} {l : List α} {c : α} (h : l.getLast? = some c) :
    c ∈ l := by
  rcases @List.mem_getLast?_eq_getLast _ l c h with ⟨hne, rfl⟩
  exact List.getLast_mem hne

/-- Replacing the entry of a key leaves the key list unchanged. -/
theorem map_fst_replace (l : List (String × Session)) (sid : String) (s : Session) :
    (l.map (fun p => if p.1 = sid then (sid, s) else p)).map (fun p => p.1) =
      l.map (fun p => p.1) := by
  rw [List.map_map]
  apply List.map_congr_left
  intro p _
  by_cases h : p.1 = sid
  · simp [Function.comp, h]
  · simp [Function.comp, h]

/-- Replacing the entry of a key that is absent does nothing. -/
theorem map_replace_of_not_mem (l : List (String × Session)) (sid : String) (s : Session)
    (h : sid ∉ l.map (fun p => p.1)) :
    l.map (fun p => if p.1 = sid then (sid, s) else p) = l := by
  induction l with
  | nil => rfl
  | cons p t ih =>
    have h1 : ¬ p.1 = sid := fun hp => h (by simp [hp])
    have h2 : sid ∉ t.map (fun p => p.1) := fun hm => h (by simp [hm])
    simp [h1, ih h2]

/-- Every context value in an updated registry is the inserted session's
context or one that was already present. -/
theorem mem_ctx_insert {l : List (String × Session)} {sid : String} {s : Session}
    {x : Nat} (h : x ∈ (insertSession sid s l).map (fun p => p.2.ctx)) :
    x = s.ctx ∨ x ∈ l.map (fun p => p.2.ctx) := by
  unfold insertSession at h
  split at h
  · rcases List.mem_map.mp h with ⟨q, hq, hx⟩
    rcases List.mem_map.mp hq with ⟨p, hp, hg⟩
    by_cases hps : p.1 = sid
    · left
      rw [if_pos hps] at hg
      rw [← hg] at hx
      exact hx.symm
    · right
      rw [if_neg hps] at hg
      rw [← hg] at hx
      exact List.mem_map.mpr ⟨p, hp, hx⟩
  · rw [List.map_append] at h
    rcases List.mem_append.mp h with h | h
    · right; exact h
    · left; simpa using h

/-- Key uniqueness survives a registry insert. -/
theorem insert_keys_nodup {l : List (String × Session)} {sid : String} {s : Session}
    (h : (l.map (fun p => p.1)).Nodup) :
    ((insertSession sid s l).map (fun p => p.1)).Nodup := by
  unfold insertSession
  split
  · rw [map_fst_replace]; exact h
  next hany =>
    have hnm : sid ∉ l.map (fun p => p.1) := by
      intro hm
      rcases List.mem_map.mp hm with ⟨p, hp, he⟩
      exact hany (List.any_eq_true.mpr ⟨p, hp, by simp [he]⟩)
    rw [List.map_append]
    rw [List.nodup_append]
    refine ⟨h, List.nodup_singleton sid, ?_⟩
    intro a ha hb
    simp only [List.map_cons, List.map_nil, List.mem_singleton] at hb
    rw [hb] at ha
    exact hnm ha

/-- Context-value uniqueness survives replacing the entry of a key, when
keys are unique and the new context is fresh for the registry. -/
theorem replace_ctxs_nodup {sid : String} {s : Session} :
    ∀ l : List (String × Session), (l.map (fun p => p.1)).Nodup →
      (l.map (fun p => p.2.ctx)).Nodup → s.ctx ∉ l.map (fun p => p.2.ctx) →
      ((l.map (fun p => if p.1 = sid then (sid, s) else p)).map
        (fun p => p.2.ctx)).Nodup := by
  intro l
  induction l with
  | nil => intro _ _ _; simp
  | cons p t ih =>
    intro hk hc hn
    simp only [List.map_cons, List.nodup_cons, List.mem_cons] at hk hc hn
    push_neg at hn
    by_cases hps : p.1 = sid
    · have hrep : t.map (fun q => if q.1 = sid then (sid, s) else q) = t :=
        map_replace_of_not_mem t sid s (by rw [← hps]; exact hk.1)
      simp only [List.map_cons, if_pos hps, hrep, List.nodup_cons]
      exact ⟨hn.2, hc.2⟩
    · simp only [List.map_cons, if_neg hps, List.nodup_cons]
      constructor
      · intro hm
        rcases List.mem_map.mp hm with ⟨q, hq, hx⟩
        rcases List.mem_map.mp hq with ⟨r, hr, hg⟩
        by_cases hrs : r.1 = sid
        · rw [if_pos hrs] at hg
          rw [← hg] at hx
          exact hn.1 (by rw [← hx])
        · rw [if_neg hrs] at hg
          rw [← hg] at hx
          exact hc.1 (by rw [← hx]; exact List.mem_map.mpr ⟨r, hr, rfl⟩)
      · exact ih hk.2 hc.2 hn.2

/-- Context-value uniqueness survives a registry insert of a session with
a fresh context. -/
theorem insert_ctxs_nodup {l : List (String × Session)} {sid : String} {s : Session}
    (hk : (l.map (fun p => p.1)).Nodup) (hc : (l.map (fun p => p.2.ctx)).Nodup)
    (hn : s.ctx ∉ l.map (fun p => p.2.ctx)) :
    ((insertSession sid s l).map (fun p => p.2.ctx)).Nodup := by
  unfold insertSession
  split
  · exact replace_ctxs_nodup l hk hc hn
  · rw [List.map_append, List.nodup_append]
    refine ⟨hc, by simp, ?_⟩
    intro a ha hb
    simp only [List.map_cons, List.map_nil, List.mem_singleton] at hb
    rw [hb] at ha
    exact hn ha

/-- The context of a looked-up session appears among the registry's
context values. -/
theorem ctx_mem_of_lookup {l : List (String × Session)} {sid : String} {s : Session}
    (h : lookupAssoc sid l = some s) : s.ctx ∈ l.map (fun p => p.2.ctx) := by
  unfold lookupAssoc at h
  rcases hfind : l.find? (fun p => p.1 = sid) with _ | p
  · rw [hfind] at h; exact absurd h (by simp)
  · rw [hfind] at h
    simp only [Option.map_some'] at h
    injection h with h1
    exact List.mem_map.mpr ⟨p, List.mem_of_find?_eq_some hfind, by rw [h1]⟩

/-- After removing a session from a registry with unique keys and unique
context values, its context no longer appears. -/
theorem removed_ctx_not_mem : ∀ (l : List (String × Session)) (sid : String) (s : Session),
    (l.map (fun p => p.1)).Nodup → (l.map (fun p => p.2.ctx)).Nodup →
    lookupAssoc sid l = some s →
    s.ctx ∉ (l.filter (fun p => p.1 ≠ sid)).map (fun p => p.2.ctx) := by
  intro l
  induction l with
  | nil => intro sid s _ _ h; exact absurd h (by simp [lookupAssoc])
  | cons p t ih =>
    intro sid s hk hc hl
    rw [lookupAssoc_cons] at hl
    simp only [List.map_cons, List.nodup_cons] at hk hc
    by_cases hps : p.1 = sid
    · rw [if_pos hps] at hl
      injection hl with h1
      subst h1
      have hfil : (p :: t).filter (fun q => q.1 ≠ sid) =
          t.filter (fun q => q.1 ≠ sid) := by
        simp [List.filter_cons, hps]
      rw [hfil]
      intro hm
      exact hc.1 (((List.filter_sublist t).map _).subset hm)
    · rw [if_neg hps] at hl
      have hfil : (p :: t).filter (fun q => q.1 ≠ sid) =
          p :: t.filter (fun q => q.1 ≠ sid) := by
        simp [List.filter_cons, hps]
      rw [hfil, List.map_cons]
      intro hm
      rcases List.mem_cons.mp hm with hm | hm
      · have := ctx_mem_of_lookup hl
        rw [hm] at this
        exact hc.1 this
      · exact ih sid s hk.2 hc.2 hl hm

/-- The inductive invariant tying the pool and the registry together:
pooled contexts are unique and fresh-bounded, session contexts are
fresh-bounded, no context is both pooled and referenced by a live
session, session contexts are pairwise distinct, and registry keys are
unique. -/
def PoolInv (st : ServerState) : Prop :=
  st.contextPool.Nodup ∧
  (∀ c ∈ st.contextPool, c < st.nextCtx) ∧
  (∀ c ∈ sessionCtxs st, c < st.nextCtx) ∧
  (∀ c ∈ st.contextPool, c ∉ sessionCtxs st) ∧
  (sessionCtxs st).Nodup ∧
  (st.sessions.map (fun p => p.1)).Nodup

/-- The invariant holds right after `start()`. -/
theorem poolInv_start (cfg : Config) : PoolInv (startState cfg) := by
  unfold PoolInv
  simp only [startState, sessionCtxs]
  split
  · refine ⟨List.nodup_range _, ?_, by simp, by simp, by simp, by simp⟩
    intro c hc
    rw [List.length_range]
    exact List.mem_range.mp hc
  · exact ⟨List.nodup_nil, by simp, by simp, by simp, by simp, by simp⟩

/-- The invariant is preserved by every session create/close operation
(with its internal borrow/release). -/
theorem poolInv_step (cfg : Config) (st : ServerState) (op : SessionOp)
    (h : PoolInv st) : PoolInv (stepOp cfg st op) := by
  obtain ⟨hnd, hpb, hsb, hdis, hcnd, hknd⟩ := h
  cases op with
  | create p =>
    show PoolInv (createSession cfg st p).1
    rcases createSession_cases cfg st p with hc | ⟨rh, c, st1, w, hb, hc | ⟨hcap, hc⟩⟩
    · rw [hc]; exact ⟨hnd, hpb, hsb, hdis, hcnd, hknd⟩
    · rw [hc]
      rcases borrowContext_spec hb with ⟨hceq, h1⟩ | ⟨hlast, h1⟩
      · rw [h1]
        exact ⟨hnd, fun x hx => Nat.lt_succ_of_lt (hpb x hx),
          fun x hx => Nat.lt_succ_of_lt (hsb x hx), hdis, hcnd, hknd⟩
      · rw [h1]
        refine ⟨hnd.sublist (List.dropLast_sublist _), ?_, hsb, ?_, hcnd, hknd⟩
        · intro x hx; exact hpb x ((List.dropLast_sublist _).subset hx)
        · intro x hx; exact hdis x ((List.dropLast_sublist _).subset hx)
    · rw [hc]
      rcases borrowContext_spec hb with ⟨hceq, h1⟩ | ⟨hlast, h1⟩
      · subst hceq
        rw [h1]
        unfold PoolInv sessionCtxs
        dsimp only
        refine ⟨hnd, fun x hx => Nat.lt_succ_of_lt (hpb x hx), ?_, ?_, ?_, ?_⟩
        · intro x hx
          rcases mem_ctx_insert hx with heq | hx2
          · rw [heq]; exact Nat.lt_succ_self _
          · exact Nat.lt_succ_of_lt (hsb x hx2)
        · intro x hx hmem
          rcases mem_ctx_insert hmem with heq | hmem2
          · rw [heq] at hx
            exact Nat.lt_irrefl _ (hpb _ hx)
          · exact hdis x hx hmem2
        · exact insert_ctxs_nodup hknd hcnd
            (fun hm => Nat.lt_irrefl _ (hsb _ hm))
        · exact insert_keys_nodup hknd
      · have hcmem : c ∈ st.contextPool := mem_of_getLast?_some hlast
        have hdecomp : st.contextPool.dropLast ++ [c] = st.contextPool :=
          List.dropLast_append_getLast? c hlast
        have hcnotdrop : c ∉ st.contextPool.dropLast := by
          have hnd2 := hnd
          rw [← hdecomp, List.nodup_append] at hnd2
          intro hm
          exact hnd2.2.2 hm (by simp)
        rw [h1]
        unfold PoolInv sessionCtxs
        dsimp only
        refine ⟨hnd.sublist (List.dropLast_sublist _), ?_, ?_, ?_, ?_, ?_⟩
        · intro x hx; exact hpb x ((List.dropLast_sublist _).subset hx)
        · intro x hx
          rcases mem_ctx_insert hx with heq | hx2
          · rw [heq]; exact hpb c hcmem
          · exact hsb x hx2
        · intro x hx hmem
          rcases mem_ctx_insert hmem with heq | hmem2
          · rw [heq] at hx
            exact hcnotdrop hx
          · exact hdis x ((List.dropLast_sublist _).subset hx) hmem2
        · exact insert_ctxs_nodup hknd hcnd (hdis c hcmem)
        · exact insert_keys_nodup hknd
  | close sid f =>
    show PoolInv (closeSession cfg (fun _ => f) st sid)
    have hsub : ((st.sessions.filter (fun p => p.1 ≠ sid)).map
        (fun p => p.2.ctx)).Sublist (st.sessions.map (fun p => p.2.ctx)) :=
      (List.filter_sublist st.sessions).map _
    have hksub : ((st.sessions.filter (fun p => p.1 ≠ sid)).map
        (fun p => p.1)).Sublist (st.sessions.map (fun p => p.1)) :=
      (List.filter_sublist st.sessions).map _
    rcases closeSession_cases cfg (fun _ => f) st sid with ⟨_, hc⟩ |
      ⟨s, hl, hc | hc | ⟨hpe, hlt, hc⟩⟩
    · rw [hc]; exact ⟨hnd, hpb, hsb, hdis, hcnd, hknd⟩
    · rw [hc]
      refine ⟨hnd, hpb, ?_, ?_, hcnd.sublist hsub, hknd.sublist hksub⟩
      · intro x hx; exact hsb x (hsub.subset hx)
      · intro x hx hm; exact hdis x hx (hsub.subset hm)
    · rw [hc]
      refine ⟨hnd, hpb, ?_, ?_, hcnd.sublist hsub, hknd.sublist hksub⟩
      · intro x hx; exact hsb x (hsub.subset hx)
      · intro x hx hm; exact hdis x hx (hsub.subset hm)
    · rw [hc]
      have hsctx : s.ctx ∈ sessionCtxs st := ctx_mem_of_lookup hl
      have hsnotpool : s.ctx ∉ st.contextPool := fun hm => hdis s.ctx hm hsctx
      have hslt : s.ctx < st.nextCtx := hsb s.ctx hsctx
      refine ⟨?_, ?_, ?_, ?_, hcnd.sublist hsub, hknd.sublist hksub⟩
      · rw [List.nodup_append]
        refine ⟨hnd, by simp, ?_⟩
        intro a ha hb
        simp only [List.mem_singleton] at hb
        rw [hb] at ha
        exact hsnotpool ha
      · intro x hx
        rcases List.mem_append.mp hx with hx | hx
        · exact hpb x hx
        · simp only [List.mem_singleton] at hx
          rw [hx]; exact hslt
      · intro x hx; exact hsb x (hsub.subset hx)
      · intro x hx hm
        rcases List.mem_append.mp hx with hx | hx
        · exact hdis x hx (hsub.subset hm)
        · simp only [List.mem_singleton] at hx
          rw [hx] at hm
          exact removed_ctx_not_mem st.sessions sid s hknd hcnd hl hm

/-- C7: starting from the server's start state, after any sequence of
session create/close operations (each performing its internal pool
borrow/release), no browser context is simultaneously present in the
pool's free list and referenced by a live session in the registry — so a
pooled context handed to a borrower is never still referenced by a live
session. -/
theorem C7_no_double_borrow (cfg : Config) (ops : List SessionOp) (c : Nat)
    (hc : c ∈ (runOps cfg ops (startState cfg)).contextPool) :
    c ∉ sessionCtxs (runOps cfg ops (startState cfg)) := by
  have key : ∀ ops st, PoolInv st → PoolInv (runOps cfg ops st) := by
    intro ops
    induction ops with
    | nil => intro st h; exact h
    | cons op rest ih => intro st h; exact ih _ (poolInv_step cfg st op h)
  exact (key ops _ (poolInv_start cfg)).2.2.2.1 c hc

/-- A configuration with a pool of two and room for several sessions. -/
def twoPoolCfg : Config :=
  { maxSessions := 5, poolEnabledEnv := true, poolSize := 2, harEnabled := false,
    eventStreamEnabled := true, videoDir := "", artifactRoot := ["screenshots"] }

/-- C7, witness: after creating one session (which pops pooled context 1),
context 0 is still pooled and referenced by no live session. -/
theorem C7_no_double_borrow_witness :
    (0 : Nat) ∉ sessionCtxs
      (runOps twoPoolCfg [SessionOp.create (plainCreate "s1" "ws1")]
        (startState twoPoolCfg)) :=
  C7_no_double_borrow twoPoolCfg [SessionOp.create (plainCreate "s1" "ws1")] 0
    (by decide)

/-! ## Claim C5: event delivery -/

/-- The fan-out loop delivers the envelope exactly to the owners whose
send does not fail, in order. -/
theorem sendLoop_sends (fails : Nat → Bool) (env : Envelope) :
    ∀ (os : List Nat) (m : OwnersMap),
      (sendLoop fails env os m).2 =
        (os.filter (fun c => !(fails c))).map (fun c => (c, env)) := by
  intro os
  induction os with
  | nil => intro m; rfl
  | cons c rest ih =>
    intro m
    simp only [sendLoop, List.filter_cons]
    by_cases hf : fails c = true
    · simp [hf, ih]
    · simp only [Bool.not_eq_true] at hf
      simp [hf, ih]

/-- A connection just unregistered owns no session. -/
theorem unregister_not_owner (c : Nat) (m : OwnersMap) :
    ∀ p ∈ unregisterConn c m, c ∉ p.2 := by
  intro p hp
  unfold unregisterConn at hp
  rcases List.mem_map.mp hp with ⟨q, _, hg⟩
  subst hg
  intro hm
  dsimp only at hm
  split at hm
  · rcases List.mem_filter.mp hm with ⟨_, hne⟩
    simp at hne
  next hcq => exact hcq hm

/-- Unregistering one connection never re-registers another. -/
theorem unregister_preserves_not_owner (c c2 : Nat) (m : OwnersMap)
    (h : ∀ p ∈ m, c ∉ p.2) : ∀ p ∈ unregisterConn c2 m, c ∉ p.2 := by
  intro p hp
  unfold unregisterConn at hp
  rcases List.mem_map.mp hp with ⟨q, hq, hg⟩
  have hcq : c ∉ q.2 := h q (List.mem_filter.mp hq).1
  subst hg
  intro hm
  dsimp only at hm
  split at hm
  · exact hcq (List.mem_filter.mp hm).1
  · exact hcq hm

/-- After the fan-out loop, a connection whose send failed (or that owned
nothing to begin with) owns no session in the resulting map. -/
theorem sendLoop_unregisters (fails : Nat → Bool) (env : Envelope) :
    ∀ (os : List Nat) (m : OwnersMap) (c : Nat), fails c = true →
      (c ∈ os ∨ ∀ p ∈ m, c ∉ p.2) →
      ∀ p ∈ (sendLoop fails env os m).1, c ∉ p.2 := by
  intro os
  induction os with
  | nil =>
    intro m c _ hd p hp
    rcases hd with hd | hd
    · exact absurd hd (by simp)
    · exact hd p hp
  | cons d rest ih =>
    intro m c hf hd
    simp only [sendLoop]
    by_cases hfd : fails d = true
    · rw [if_pos hfd]
      rcases hd with hd | hd
      · rcases List.mem_cons.mp hd with hd | hd
        · subst hd
          exact ih _ c hf (Or.inr (unregister_not_owner c m))
        · exact ih _ c hf (Or.inl hd)
      · exact ih _ c hf (Or.inr (unregister_preserves_not_owner c d m hd))
    · rw [if_neg hfd]
      rcases hd with hd | hd
      · rcases List.mem_cons.mp hd with hd | hd
        · subst hd; exact absurd hf hfd
        · exact ih _ c hf (Or.inl hd)
      · exact ih _ c hf (Or.inr hd)

/-- A per-connection session used in concrete broadcaster states. -/
def sessS : Session :=
  { ctx := 0, poolEligible := false, eventStreamEnabled := true, harEnabled := false,
    workspaceId := "ws1" }

/-- C5, counterexample: the claim says every event emitted for a session
— command lifecycle events included — reaches every registered owner of
that session.  Command lifecycle events go through `_emit_event`, which
sends only to the connection that issued the command: with owners 1 and 2
registered for session `S` and the stream enabled, a `command_started`
event reaches connection 1 only. -/
theorem C5_command_event_single_target :
    2 ∈ ownersOf "S" [("S", [1, 2])] ∧
    (emitEvent true [("S", sessS)] (some 1) (fun _ => false) "S" "command_started" 0
        (EventData.cmdStarted "navigate")).map Prod.fst = [1] := by
  exact ⟨by decide, by decide⟩

/-- C5 (amended): console events (`_emit_session_event`) are delivered to
every currently-registered owner of the session whose send succeeds and
to no others, a per-owner send failure unregisters that owner from every
session without preventing delivery to the remaining owners, and emission
is a complete no-op when the event stream is disabled globally or for
that session; command lifecycle events (`_emit_event`) are gated the same
way but are delivered only to the connection that issued the command. -/
theorem C5_event_delivery (ge : Bool) (sessions : List (String × Session))
    (m : OwnersMap) (fails : Nat → Bool) (sid event : String) (ts : Nat)
    (d : EventData) :
    (ge = false →
      emitSessionEvent ge sessions m fails sid event ts d = (m, []) ∧
      ∀ w, emitEvent ge sessions w fails sid event ts d = []) ∧
    (sessionStreamEnabled sid sessions = false →
      emitSessionEvent ge sessions m fails sid event ts d = (m, []) ∧
      ∀ w, emitEvent ge sessions w fails sid event ts d = []) ∧
    (ge = true → sessionStreamEnabled sid sessions = true →
      (emitSessionEvent ge sessions m fails sid event ts d).2 =
        ((ownersOf sid m).filter (fun c => !(fails c))).map
          (fun c => (c, mkEnvelope event sid ts d))) ∧
    (ge = true → sessionStreamEnabled sid sessions = true →
      ∀ c, c ∈ ownersOf sid m → fails c = true →
        ∀ p ∈ (emitSessionEvent ge sessions m fails sid event ts d).1, c ∉ p.2) ∧
    (∀ w, (emitEvent ge sessions (some w) fails sid event ts d).map Prod.fst ⊆ [w]) := by
  refine ⟨?_, ?_, ?_, ?_, ?_⟩
  · intro h
    subst h
    exact ⟨rfl, fun w => rfl⟩
  · intro h
    constructor
    · unfold emitSessionEvent
      by_cases hge : ge = false
      · rw [if_pos hge]
      · rw [if_neg hge, if_pos h]
    · intro w
      unfold emitEvent
      by_cases hge : ge = false
      · rw [if_pos hge]
      · rw [if_neg hge, if_pos h]
  · intro hge hse
    subst hge
    unfold emitSessionEvent
    rw [if_neg (by simp), if_neg (by simp [hse])]
    exact sendLoop_sends fails _ (ownersOf sid m) m
  · intro hge hse c hc hf
    subst hge
    unfold emitSessionEvent
    rw [if_neg (by simp), if_neg (by simp [hse])]
    exact sendLoop_unregisters fails _ (ownersOf sid m) m c hf (Or.inl hc)
  · intro w
    unfold emitEvent
    split
    · simp
    split
    · simp
    · dsimp only
      by_cases hf : fails w = true
      · rw [if_pos hf]; simp
      · rw [if_neg hf]; simp

/-- C5, witness: `C5_event_delivery` applied at concrete inputs — a
globally disabled emitter sends nothing; with the stream enabled and the
send to connection 2 failing, the envelope is delivered per the
filter-of-owners formula and connection 2 is unregistered everywhere;
command events go only to the invoking connection. -/
theorem C5_event_delivery_witness :
    emitSessionEvent false [("S", sessS)] [("S", [1, 2])] (fun _ => false) "S"
      "console" 0 (EventData.console "hi") = ([("S", [1, 2])], []) ∧
    (emitSessionEvent true [("S", sessS)] [("S", [1, 2])] (fun c => c == 2) "S"
        "console" 0 (EventData.console "hi")).2 =
      ((ownersOf "S" [("S", [1, 2])]).filter (fun c => !((fun c => c == 2) c))).map
        (fun c => (c, mkEnvelope "console" "S" 0 (EventData.console "hi"))) ∧
    (∀ p ∈ (emitSessionEvent true [("S", sessS)] [("S", [1, 2])] (fun c => c == 2) "S"
        "console" 0 (EventData.console "hi")).1, 2 ∉ p.2) ∧
    (emitEvent true [("S", sessS)] (some 1) (fun _ => false) "S" "command_started" 0
        (EventData.cmdStarted "navigate")).map Prod.fst ⊆ [1] :=
  ⟨((C5_event_delivery false [("S", sessS)] [("S", [1, 2])] (fun _ => false) "S"
      "console" 0 (EventData.console "hi")).1 rfl).1,
    (C5_event_delivery true [("S", sessS)] [("S", [1, 2])] (fun c => c == 2) "S"
      "console" 0 (EventData.console "hi")).2.2.1 rfl rfl,
    (C5_event_delivery true [("S", sessS)] [("S", [1, 2])] (fun c => c == 2) "S"
      "console" 0 (EventData.console "hi")).2.2.2.1 rfl rfl 2 (by decide) rfl,
    (C5_event_delivery true [("S", sessS)] [("S", [1, 2])] (fun _ => false) "S"
      "command_started" 0 (EventData.cmdStarted "navigate")).2.2.2.2 1⟩

/-! ## Claim C6: dispatcher error handling -/

/-- C6, at the failing input: a frame whose JSON parses to a non-object
(such as `[1, 2]`) raises `AttributeError` out of the dispatcher — the
`except` block's own `data.get` re-raises, as only `NameError` is caught
— so the read loop aborts and a subsequent valid `health` command is
never processed; processed alone, that same command succeeds, and
malformed JSON and unknown commands are answered with their error
envelopes while the loop continues. -/
theorem C6_nonobject_crashes_read_loop :
    (handleMessage (fun _ _ _ => Except.ok { sessionId := none }) "gid" true [] []
        (fun _ => false) 7 "implicit" 0 Inbound.nonObject).1 =
      DispatchOutcome.crashed "AttributeError" ∧
    readLoop (fun _ _ _ => Except.ok { sessionId := none }) "gid" true []
        (fun _ => false) 7 "implicit" 0 []
        [Inbound.nonObject, Inbound.parsed (some "1") "health" { sessionId := none }] =
      ([], false) ∧
    readLoop (fun _ _ _ => Except.ok { sessionId := none }) "gid" true []
        (fun _ => false) 7 "implicit" 0 []
        [Inbound.parsed (some "1") "health" { sessionId := none }] =
      ([Outbound.response "1" true { sessionId := none }], true) ∧
    readLoop (fun _ _ _ => Except.ok { sessionId := none }) "gid" true []
        (fun _ => false) 7 "implicit" 0 []
        [Inbound.malformed "syntax", Inbound.parsed (some "2") "frobnicate"
            { sessionId := none }] =
      ([Outbound.jsonError "Invalid JSON: syntax",
        Outbound.cmdError (some "2") "Unknown command: frobnicate"], true) := by
  exact ⟨rfl, by decide, by decide, by decide⟩

end WsServer
